import Mathlib

/-!
Shallow embedding of the trade-data aggregation and trend-projection pipeline
of the Turkey–Poland trade dashboard scripts
(`Poland_Turkey_Trade_App.py`, `app.py`, `pages/EU_Trade_with_Turkey.py`,
`pages/military_comparator.py`).

Numeric source values (spreadsheet cells) are modelled as rationals `ℚ`;
the growth-rate computation `(end/start) ** (1/years)` is modelled with the
real power function `Real.rpow`, so growth rates and projected values live
in `ℝ`.  Fallible computations (the `return None` paths of
`project_series_cagr`, the `st.stop()` guards) are modelled with `Option`
and a dedicated outcome type.
-/

/-- One (Year, Final_FOB_Value) row of an aggregated per-category series,
as consumed by `project_series_cagr`. -/
structure Obs where
  year : ℤ
  value : ℚ
  deriving DecidableEq, Repr

/-- One raw trade record after direction/category filtering: the
(Year, category-code, Final_FOB_Value) fields the pipeline reads. -/
structure Rec where
  year : ℤ
  cat : String
  value : ℚ
  deriving DecidableEq, Repr

/-- Mirrors `df_series.sort_values("Year")`: sort rows by year ascending
(stable). -/
def sortByYear (s : List Obs) : List Obs :=
  List.insertionSort (fun a b => a.year ≤ b.year) s

/-- Mirrors `recent = df_series[df_series["Year"] >= 2020]` applied to the
year-sorted series. -/
def recentWindow (s : List Obs) : List Obs :=
  (sortByYear s).filter (fun o => decide (2020 ≤ o.year))

/-- Mirrors `max(min(cagr, 0.35), -0.35)` from `project_series_cagr`. -/
noncomputable def clamp035 (x : ℝ) : ℝ :=
  max (min x 0.35) (-0.35)

/-- Growth-estimator half of `project_series_cagr` (lines 50-71 of
`Poland_Turkey_Trade_App.py`): restrict to years ≥ 2020, bail out (`None`)
on fewer than 2 rows, non-positive start value, or zero year span,
otherwise return the clamped rate `(end/start)^(1/years) - 1`. -/
noncomputable def cagrOf (s : List Obs) : Option ℝ :=
  let recent := recentWindow s
  if recent.length < 2 then none
  else
    match recent.head?, recent.getLast? with
    | some f, some l =>
      if f.value ≤ 0 then none
      else if l.year - f.year = 0 then none
      else some (clamp035
        (((l.value : ℝ) / (f.value : ℝ)) ^ (((l.year - f.year : ℤ) : ℝ))⁻¹ - 1))
    | _, _ => none

/-- The `for y in range(last_year + 1, 2031)` loop body of
`project_series_cagr`: repeatedly multiply the running value by `(1+rate)`
and emit `(year, max(value, 0))`, driven by a fuel counter. -/
noncomputable def projectLoop (r : ℝ) : ℤ → ℝ → ℕ → List (ℤ × ℝ)
  | _, _, 0 => []
  | y, v, n + 1 =>
    (y + 1, max (v * (1 + r)) 0) :: projectLoop r (y + 1) (v * (1 + r)) n

/-- Projector half of `project_series_cagr`: extrapolate from the last
historical point up to the fixed 2030 horizon. -/
noncomputable def projectFrom (lastYear : ℤ) (lastValue r : ℝ) : List (ℤ × ℝ) :=
  projectLoop r lastYear lastValue (2030 - lastYear).toNat

/-- Whole `project_series_cagr`: `None` on an invalid growth estimate,
otherwise the projection rows built from the last row of the year-sorted
series. -/
noncomputable def project_series_cagr (s : List Obs) : Option (List (ℤ × ℝ)) :=
  match cagrOf s with
  | none => none
  | some r =>
    match (sortByYear s).getLast? with
    | none => none
    | some last => some (projectFrom last.year (last.value : ℝ) r)

/-- First value of the trailing window (`recent.iloc[0]["Final_FOB_Value"]`),
defaulting to 0 on an empty window. -/
def startVal (s : List Obs) : ℚ :=
  ((recentWindow s).head?.map Obs.value).getD 0

/-- Last value of the trailing window (`recent.iloc[-1]["Final_FOB_Value"]`). -/
def endVal (s : List Obs) : ℚ :=
  ((recentWindow s).getLast?.map Obs.value).getD 0

/-- Year span of the trailing window
(`recent.iloc[-1]["Year"] - recent.iloc[0]["Year"]`). -/
def spanOf (s : List Obs) : ℤ :=
  (((recentWindow s).getLast?.map Obs.year).getD 0) -
    (((recentWindow s).head?.map Obs.year).getD 0)

/-- Growth Estimator test input `[(2020,100),(2024,100)]`. -/
def exFlat : List Obs := [⟨2020, 100⟩, ⟨2024, 100⟩]

/-- Growth Estimator test input `[(2020,100)]`. -/
def exSingle : List Obs := [⟨2020, 100⟩]

/-- Growth Estimator test input `[(2020,0),(2024,50)]`. -/
def exZeroStart : List Obs := [⟨2020, 0⟩, ⟨2024, 50⟩]

/-- Growth Estimator test input `[(2020,100),(2024,1000)]`. -/
def exTenfold : List Obs := [⟨2020, 100⟩, ⟨2024, 1000⟩]

/-- Sum of `Final_FOB_Value` over the records of one (year, category)
group: the value `groupby(["Year", level]).sum()` assigns to that key. -/
def sumFor (records : List Rec) (y : ℤ) (c : String) : ℚ :=
  (records.map (fun r => if r.year = y ∧ r.cat = c then r.value else 0)).sum

/-- The distinct (Year, category) keys of the record set, in order of first
appearance. -/
def keyList (records : List Rec) : List (ℤ × String) :=
  (records.map (fun r => (r.year, r.cat))).dedup

/-- Mirrors `grouped = data_for_chart.groupby(["Year", level],
as_index=False)["Final_FOB_Value"].sum()`: one row with the group sum per
(Year, category) key present. -/
def groupedRows (records : List Rec) : List (ℤ × String × ℚ) :=
  (keyList records).map (fun k => (k.1, k.2, sumFor records k.1 k.2))

/-- Mirrors `subset = grouped[grouped[level] == c]`. -/
def subsetFor (records : List Rec) (c : String) : List (ℤ × String × ℚ) :=
  (groupedRows records).filter (fun t => decide (t.2.1 = c))

/-- Value the left-merge (`hist_full.merge(subset, on=["Year", level],
how="left")` followed by `fillna(0)`) assigns to one year row: the subset
row's value if one exists for that year, else 0. -/
def lookupYear (subset : List (ℤ × String × ℚ)) (y : ℤ) : ℚ :=
  match subset.find? (fun t => decide (t.1 = y)) with
  | some t => t.2.2
  | none => 0

/-- Mirrors `all_years = list(range(2013, 2025))`. -/
def all_years : List ℤ :=
  (List.range 12).map (fun k => (2013 + k : ℤ))

/-- The zero-filled historical series the module-level loop builds for one
category: one row for every year of `all_years`, merged against the
grouped data. -/
def histSeries (records : List Rec) (c : String) : List (ℤ × ℚ) :=
  all_years.map (fun y => (y, lookupYear (subsetFor records c) y))

/-- Record set used to exercise the aggregator: two 2013 rows of category
A (summing to 12) and one 2020 row of category B. -/
def recsEx : List Rec := [⟨2013, "A", 5⟩, ⟨2013, "A", 7⟩, ⟨2020, "B", 3⟩]

/-- Growth estimator of `pages/EU_Trade_with_Turkey.py` (lines 142-160),
one `cagr_list` loop iteration: anchor on the first and last strictly
positive values of the whole year-sorted series and return
`((end/start)^(1/years) - 1) * 100` — a percent value, with no clamp;
`none` when fewer than 2 positive rows or a nonpositive year span. -/
noncomputable def euCagr (s : List Obs) : Option ℝ :=
  match (sortByYear s).filter (fun o => decide (0 < o.value)) with
  | [] => none
  | [_] => none
  | f :: g :: rest =>
    let l := (g :: rest).getLast (List.cons_ne_nil _ _)
    if 0 < l.year - f.year then
      some ((((l.value : ℝ) / (f.value : ℝ)) ^ (((l.year - f.year : ℤ) : ℝ))⁻¹ - 1) * 100)
    else none

/-- Two-point series `[(2013,1),(2014,16)]` with sixteenfold growth. -/
def exEU : List Obs := [⟨2013, 1⟩, ⟨2014, 16⟩]

/-- Flat two-point series `[(2020,1),(2021,1)]`. -/
def exUnit : List Obs := [⟨2020, 1⟩, ⟨2021, 1⟩]

/-- Total of the per-category values of the selected year
(`total = pie_data["Final_FOB_Value"].sum()`). -/
def totalOf (totals : List (String × ℚ)) : ℚ :=
  (totals.map Prod.snd).sum

/-- Share of one value: `pie_data["Final_FOB_Value"] / total * 100`. -/
def sharePercent (total v : ℚ) : ℚ :=
  v / total * 100

/-- Share-structure computation of the Home page (lines 336-348 of
`Poland_Turkey_Trade_App.py`): stop with no output when the selected year
has no rows (`pie_data.empty`); otherwise divide every value by the total.
The float division `v / total` with `total = 0` yields NaN in the
implementation; an undefined share is modelled as `none`. -/
def shareOutput (totals : List (String × ℚ)) : Option (List (String × ℚ × Option ℚ)) :=
  if totals = [] then none
  else some (totals.map (fun p => (p.1, p.2,
    if totalOf totals = 0 then none else some (sharePercent (totalOf totals) p.2))))

/-- The `Share_%` column by itself. -/
def sharePercents (totals : List (String × ℚ)) : List ℚ :=
  totals.map (fun p => sharePercent (totalOf totals) p.2)

/-- Per-category totals `{A:50, B:30, C:20}`. -/
def exShare : List (String × ℚ) := [("A", 50), ("B", 30), ("C", 20)]

/-- Lexicographic comparison of category codes by character code, the
order pandas uses when sorting string group keys. -/
def charListLe : List Char → List Char → Bool
  | [], _ => true
  | _ :: _, [] => false
  | x :: xs, y :: ys =>
    if x.toNat < y.toNat then true
    else if y.toNat < x.toNat then false
    else charListLe xs ys

/-- Mirrors `groupby(level, as_index=False)["Final_FOB_Value"].sum()` with
pandas' default `sort=True`: one row per distinct category, keys sorted
ascending, each row carrying its group sum. -/
def groupTotals (rows : List (String × ℚ)) : List (String × ℚ) :=
  (List.insertionSort (fun a b => charListLe a.data b.data = true)
      (rows.map Prod.fst).dedup).map
    (fun k => (k, (rows.map (fun p => if p.1 = k then p.2 else 0)).sum))

/-- Mirrors `.sort_values("Final_FOB_Value", ascending=False)`, modelled
as a stable sort. -/
def sortDescVal (l : List (String × ℚ)) : List (String × ℚ) :=
  List.insertionSort (fun a b => b.2 ≤ a.2) l

/-- The `top10` block (lines 145-152): group by category, sort by total
descending, keep the first `n` rows (`.head(10)` with `n = 10`). -/
def topN (rows : List (String × ℚ)) (n : ℕ) : List (String × ℚ) :=
  (sortDescVal (groupTotals rows)).take n

/-- Ranker input `{D:30, A:10, B:30, C:20}` with D inserted first. -/
def exRank : List (String × ℚ) := [("D", 30), ("A", 10), ("B", 30), ("C", 20)]

/-- Ranker input with three all-tied categories inserted in reverse
alphabetical order. -/
def exRank2 : List (String × ℚ) := [("Z", 5), ("Y", 5), ("X", 5)]

/-- One row of the chart table: year, value, and whether the row carries
the `"Projection"` segment tag (`true`) or `"Historical"` (`false`). -/
structure ChartRow where
  year : ℤ
  value : ℝ
  projSeg : Bool

/-- Value the per-category left-merge assigns to one year row: the
aggregated subset's value for that year if present, else 0. -/
def histRowVal (subset : List Obs) (y : ℤ) : ℚ :=
  match subset.find? (fun o => decide (o.year = y)) with
  | some o => o.value
  | none => 0

/-- The `hist` table for one category: one `Historical` row per year of
2013..2024, zero-filled. -/
noncomputable def histOf (subset : List Obs) : List ChartRow :=
  all_years.map (fun y => ⟨y, (histRowVal subset y : ℝ), false⟩)

/-- The `st.info` notice condition (line 229 of
`Poland_Turkey_Trade_App.py`): fewer than 2 strictly positive rows in the
category's series. -/
def noticeCond (subset : List Obs) : Bool :=
  decide ((subset.filter (fun o => decide (0 < o.value))).length < 2)

/-- The per-category chart rows built by the module-level loop (lines
232-260): the zero-filled historical part, extended — when projections
are requested and `project_series_cagr` returns a nonempty table — by the
repeated last historical row and the projection rows, tagged as the
projection segment. -/
noncomputable def mergedFor (showProj : Bool) (subset : List Obs) : List ChartRow :=
  let hist := histOf subset
  if showProj then
    match project_series_cagr subset with
    | some proj =>
      if proj = [] then hist
      else
        match (sortByYear subset).getLast? with
        | some last => hist ++ (⟨last.year, (last.value : ℝ), true⟩ ::
            proj.map (fun p => ⟨p.1, p.2, true⟩))
        | none => hist
    | none => hist
  else hist

/-- Series `[(2013,100),(2024,50)]`: two positive rows, but only one of
them inside the ≥ 2020 estimation window. -/
def exC7 : List Obs := [⟨2013, 100⟩, ⟨2024, 50⟩]

/-- Series `[(2020,100),(2024,0)]`: a single positive row, yet a valid
(clamped) growth estimate. -/
def exPos : List Obs := [⟨2020, 100⟩, ⟨2024, 0⟩]

/-- The projection rows `project_series_cagr` produces for `exPos`. -/
noncomputable def proj6 : List (ℤ × ℝ) :=
  projectFrom 2024 0 (-0.35)

/-- Series `[(2030,100),(2031,200)]`, ending past the 2030 horizon. -/
def exC10 : List Obs := [⟨2030, 100⟩, ⟨2031, 200⟩]

/-- Year of the last row of the year-sorted series
(`df_series.iloc[-1]["Year"]`), 0 for an empty series. -/
def lastYearOf (s : List Obs) : ℤ :=
  (((sortByYear s).getLast?).map Obs.year).getD 0

/-- Outcome of one query branch after the module-level empty guard
(lines 134-137): `halted` models `st.warning(...); st.stop()`, `rendered`
carries the per-category zero-filled series the page then charts. -/
inductive Outcome where
  | halted : Outcome
  | rendered : List (String × List (ℤ × ℚ)) → Outcome
  deriving DecidableEq

/-- Distinct categories of the filtered record set, in order of first
appearance (`grouped[level].unique()`). -/
def catsOf (records : List Rec) : List String :=
  (records.map Rec.cat).dedup

/-- One query branch: stop at the guard when the filtered record set is
empty, otherwise build the zero-filled historical series of every
category present. -/
def runBranch (records : List Rec) : Outcome :=
  if records = [] then .halted
  else .rendered ((catsOf records).map (fun c => (c, histSeries records c)))

theorem cagrOf_eq_of_two_le {s : List Obs} (h : 2 ≤ (recentWindow s).length) :
    cagrOf s =
      (if startVal s ≤ 0 then none
       else if spanOf s = 0 then none
       else some (clamp035
         (((endVal s : ℝ) / (startVal s : ℝ)) ^ ((spanOf s : ℝ))⁻¹ - 1))) := by
  have hne : recentWindow s ≠ [] := by
    intro hnil
    rw [hnil] at h
    simp at h
  have hh : (recentWindow s).head? = some ((recentWindow s).head hne) :=
    List.head?_eq_head hne
  have hl : (recentWindow s).getLast? = some ((recentWindow s).getLast hne) :=
    List.getLast?_eq_getLast_of_ne_nil hne
  have hs : startVal s = ((recentWindow s).head hne).value := by
    simp [startVal, hh]
  have he : endVal s = ((recentWindow s).getLast hne).value := by
    simp [endVal, hl]
  have hsp : spanOf s =
      ((recentWindow s).getLast hne).year - ((recentWindow s).head hne).year := by
    simp [spanOf, hh, hl]
  rw [hs, he, hsp]
  simp only [cagrOf, hh, hl]
  rw [if_neg (by omega)]

theorem projectLoop_eq (r : ℝ) :
    ∀ (n : ℕ) (y : ℤ) (v : ℝ),
      projectLoop r y v n =
        (List.range n).map
          (fun k : ℕ => ((y + k + 1 : ℤ), max (v * (1 + r) ^ (k + 1)) 0)) := by
  intro n
  induction n with
  | zero => intro y v; rfl
  | succ m ih =>
    intro y v
    show (y + 1, max (v * (1 + r)) 0) :: projectLoop r (y + 1) (v * (1 + r)) m = _
    rw [ih, List.range_succ_eq_map, List.map_cons, List.map_map]
    congr 1
    · norm_num
    · refine List.map_congr_left fun k _ => ?_
      simp only [Function.comp_apply, Prod.mk.injEq]
      refine ⟨by push_cast; ring, ?_⟩
      have : v * (1 + r) * (1 + r) ^ (k + 1) = v * (1 + r) ^ (k + 1 + 1) := by ring
      rw [this]

/-- C1: the growth estimator restricts to entries with period ≥ 2020 and
returns `none` when that window has fewer than 2 entries, when its first
value is ≤ 0, or when its period span is 0; otherwise it returns
`(end/start)^(1/yearsSpan) - 1` clamped to `[-0.35, 0.35]`.  Moreover
`[(2020,100),(2024,100)]` gives rate 0, `[(2020,100)]` alone is invalid,
`[(2020,0),(2024,50)]` is invalid, and `[(2020,100),(2024,1000)]` gives the
clamped rate 0.35. -/
theorem cagr_guards_and_examples :
    (∀ s : List Obs, (recentWindow s).length < 2 → cagrOf s = none)
    ∧ (∀ s : List Obs, startVal s ≤ 0 → cagrOf s = none)
    ∧ (∀ s : List Obs, 2 ≤ (recentWindow s).length → spanOf s = 0 → cagrOf s = none)
    ∧ (∀ s : List Obs, 2 ≤ (recentWindow s).length → 0 < startVal s → spanOf s ≠ 0 →
        cagrOf s = some (clamp035
          (((endVal s : ℝ) / (startVal s : ℝ)) ^ ((spanOf s : ℝ))⁻¹ - 1)))
    ∧ cagrOf exFlat = some 0
    ∧ cagrOf exSingle = none
    ∧ cagrOf exZeroStart = none
    ∧ cagrOf exTenfold = some 0.35 := by
  refine ⟨?_, ?_, ?_, ?_, ?_, ?_, ?_, ?_⟩
  · intro s h
    simp [cagrOf, h]
  · intro s h
    by_cases hlen : (recentWindow s).length < 2
    · simp [cagrOf, hlen]
    · rw [cagrOf_eq_of_two_le (by omega), if_pos h]
  · intro s hlen hsp
    rw [cagrOf_eq_of_two_le hlen]
    by_cases hsv : startVal s ≤ 0
    · rw [if_pos hsv]
    · rw [if_neg hsv, if_pos hsp]
  · intro s hlen hsv hsp
    rw [cagrOf_eq_of_two_le hlen, if_neg (not_le.mpr hsv), if_neg hsp]
  · have hw : recentWindow exFlat = [⟨2020, 100⟩, ⟨2024, 100⟩] := by decide
    simp only [cagrOf, hw]
    norm_num [clamp035, Real.one_rpow]
  · rfl
  · rfl
  · have hw : recentWindow exTenfold = [⟨2020, 100⟩, ⟨2024, 1000⟩] := by decide
    simp only [cagrOf, hw]
    have hb : (1.35 : ℝ) ≤ (10 : ℝ) ^ ((4 : ℝ))⁻¹ := by
      have h1 : ((1.35 : ℝ) ^ (4 : ℕ)) ≤ 10 := by norm_num
      have h2 : ((1.35 : ℝ) ^ (4 : ℕ)) ^ ((4 : ℝ))⁻¹ ≤ (10 : ℝ) ^ ((4 : ℝ))⁻¹ :=
        Real.rpow_le_rpow (by positivity) h1 (by norm_num)
      have h3 : ((1.35 : ℝ) ^ (4 : ℕ)) ^ ((4 : ℝ))⁻¹ = 1.35 := by
        rw [← Real.rpow_natCast (1.35 : ℝ) 4, ← Real.rpow_mul (by norm_num)]
        norm_num
      rwa [h3] at h2
    have hc : clamp035 ((10 : ℝ) ^ ((4 : ℝ))⁻¹ - 1) = 0.35 := by
      unfold clamp035
      rw [min_eq_right (by linarith), max_eq_left (by norm_num)]
    norm_num
    convert hc using 3 <;> norm_num

theorem cagr_guards_and_examples_witness :
    2 ≤ (recentWindow exFlat).length ∧ 0 < startVal exFlat ∧ spanOf exFlat ≠ 0 ∧
      cagrOf exFlat = some (clamp035
        (((endVal exFlat : ℝ) / (startVal exFlat : ℝ)) ^ ((spanOf exFlat : ℝ))⁻¹ - 1)) :=
  ⟨by decide, by decide, by decide,
    cagr_guards_and_examples.2.2.2.1 exFlat (by decide) (by decide) (by decide)⟩

/-- C2: for a last historical period before 2030, a last value and a valid
rate, the projector produces exactly the periods `lastPeriod+1 .. 2030`,
in order, the value for `lastPeriod+k` being `lastValue*(1+rate)^k`
floored at 0 (hence every projected value is nonnegative). -/
theorem projector_closed_form (ly : ℤ) (lv r : ℝ) (_h : ly < 2030) :
    projectFrom ly lv r =
      (List.range (2030 - ly).toNat).map
        (fun k : ℕ => ((ly + k + 1 : ℤ), max (lv * (1 + r) ^ (k + 1)) 0))
    ∧ (projectFrom ly lv r).length = (2030 - ly).toNat
    ∧ (∀ p ∈ projectFrom ly lv r, 0 ≤ p.2) := by
  have hcf := projectLoop_eq r (2030 - ly).toNat ly lv
  refine ⟨hcf, ?_, ?_⟩
  · rw [projectFrom, hcf]
    simp
  · intro p hp
    rw [projectFrom, hcf] at hp
    obtain ⟨k, _, hk⟩ := List.mem_map.mp hp
    rw [← hk]
    exact le_max_right _ _

theorem projector_closed_form_witness :
    (2024 : ℤ) < 2030 ∧ ((2030 : ℤ) - 2024).toNat = 6 ∧
      (projectFrom 2024 100 (1 / 10)).length = ((2030 : ℤ) - 2024).toNat :=
  ⟨by norm_num, by decide,
    (projector_closed_form 2024 100 (1 / 10) (by norm_num)).2.1⟩

theorem lookupYear_subsetFor (records : List Rec) (c : String) (y : ℤ) :
    lookupYear (subsetFor records c) y = sumFor records y c := by
  rcases hf : (subsetFor records c).find? (fun t => decide (t.1 = y)) with _ | t
  · rw [lookupYear, hf]
    have hnone := List.find?_eq_none.mp hf
    symm
    refine List.sum_eq_zero ?_
    intro x hx
    obtain ⟨r, hr, hxe⟩ := List.mem_map.mp hx
    by_cases hm : r.year = y ∧ r.cat = c
    · exfalso
      have hk : (y, c) ∈ keyList records := by
        rw [keyList, List.mem_dedup, List.mem_map]
        exact ⟨r, hr, by rw [hm.1, hm.2]⟩
      have ht : ((y, c).1, (y, c).2, sumFor records y c) ∈ groupedRows records :=
        List.mem_map.mpr ⟨(y, c), hk, rfl⟩
      have hsub : ((y : ℤ), (c : String), sumFor records y c) ∈ subsetFor records c := by
        rw [subsetFor, List.mem_filter]
        exact ⟨ht, by simp⟩
      have := hnone _ hsub
      simp at this
    · rw [← hxe, if_neg hm]
  · rw [lookupYear, hf]
    show t.2.2 = sumFor records y c
    have hp : t.1 = y := by simpa using List.find?_some hf
    have hmem : t ∈ subsetFor records c := List.mem_of_find?_eq_some hf
    have hfil := List.mem_filter.mp (by rw [subsetFor] at hmem; exact hmem)
    have hc : t.2.1 = c := by simpa using hfil.2
    obtain ⟨k, _, hk⟩ := List.mem_map.mp hfil.1
    have h1 : k.1 = t.1 := congrArg Prod.fst hk
    have h2 : k.2 = t.2.1 := by
      have := congrArg Prod.snd hk
      exact congrArg Prod.fst this
    have h3 : sumFor records k.1 k.2 = t.2.2 := by
      have := congrArg Prod.snd hk
      exact congrArg Prod.snd this
    rw [← h3, h1, h2, hp, hc]

/-- C3: for every category, the zero-filled historical series built over
the declared range 2013..2024 has exactly one entry per year of that range,
the years contiguous and sorted ascending, and each value equal to the sum
of matching source records for that (year, category), or 0 when none
exists. -/
theorem hist_zero_fill_complete (records : List Rec) (c : String) :
    (histSeries records c).map Prod.fst =
      [2013, 2014, 2015, 2016, 2017, 2018, 2019, 2020, 2021, 2022, 2023, 2024]
    ∧ List.Chain' (fun a b : ℤ => b = a + 1) ((histSeries records c).map Prod.fst)
    ∧ ∀ p ∈ histSeries records c, p.2 = sumFor records p.1 c := by
  have hlit : all_years =
      [2013, 2014, 2015, 2016, 2017, 2018, 2019, 2020, 2021, 2022, 2023, 2024] := by
    decide
  have hmap : (histSeries records c).map Prod.fst = all_years := by
    rw [histSeries, List.map_map]
    exact (List.map_congr_left fun y _ => rfl).trans (List.map_id _)
  refine ⟨?_, ?_, ?_⟩
  · rw [hmap, hlit]
  · rw [hmap, hlit]
    norm_num [List.chain'_cons]
  · intro p hp
    obtain ⟨y, _, hy⟩ := List.mem_map.mp hp
    rw [← hy]
    exact lookupYear_subsetFor records c y

theorem hist_zero_fill_complete_witness :
    ((2013 : ℤ), (0 : ℚ)) ∈ histSeries [] "A" ∧
      ((2013 : ℤ), (0 : ℚ)).2 = sumFor [] (2013 : ℤ) "A" :=
  ⟨by decide, (hist_zero_fill_complete [] "A").2.2 _ (by decide)⟩

theorem clamp035_mem (x : ℝ) : -0.35 ≤ clamp035 x ∧ clamp035 x ≤ 0.35 :=
  ⟨le_max_right _ _, max_le (min_le_right _ _) (by norm_num)⟩

/-- C4 counterexample: the EU-page growth estimator applied to
`[(2013,1),(2014,16)]` returns 1500 — a percent value far outside the
claimed symmetric bound `[-0.35, 0.35]`. -/
theorem eu_cagr_exceeds_bound :
    euCagr exEU = some 1500 ∧ ¬((1500 : ℝ) ≤ 0.35) := by
  constructor
  · have hf : (sortByYear exEU).filter (fun o => decide (0 < o.value)) =
        [⟨2013, 1⟩, ⟨2014, 16⟩] := by decide
    rw [euCagr, hf]
    norm_num [Real.rpow_one]
  · norm_num

/-- C4 (amended): every growth rate returned by the main app's estimator
`project_series_cagr` lies within `[-0.35, 0.35]` (a fractional value);
the EU-trade page's estimator is exempt — it returns unclamped percent
values. -/
theorem main_cagr_bounded (s : List Obs) (r : ℝ) (h : cagrOf s = some r) :
    -0.35 ≤ r ∧ r ≤ 0.35 := by
  by_cases hlen : (recentWindow s).length < 2
  · rw [show cagrOf s = none by simp [cagrOf, hlen]] at h
    exact Option.noConfusion h
  · rw [cagrOf_eq_of_two_le (by omega)] at h
    by_cases hsv : startVal s ≤ 0
    · rw [if_pos hsv] at h
      exact Option.noConfusion h
    · rw [if_neg hsv] at h
      by_cases hsp : spanOf s = 0
      · rw [if_pos hsp] at h
        exact Option.noConfusion h
      · rw [if_neg hsp] at h
        rw [← Option.some.inj h]
        exact clamp035_mem _

theorem main_cagr_bounded_witness :
    cagrOf exUnit = some 0 ∧ (-0.35 ≤ (0 : ℝ) ∧ (0 : ℝ) ≤ 0.35) := by
  have h : cagrOf exUnit = some 0 := by
    have hw : recentWindow exUnit = [⟨2020, 1⟩, ⟨2021, 1⟩] := by decide
    simp only [cagrOf, hw]
    norm_num [clamp035, Real.one_rpow]
  exact ⟨h, main_cagr_bounded exUnit 0 h⟩

/-- C5 counterexample: for the single row `A` with value 0 (total 0), the
share computation does not stop with a warning — it still produces output,
whose share entry is the undefined (NaN) marker. -/
theorem zero_total_still_charts :
    shareOutput [("A", 0)] = some [("A", 0, none)] ∧ shareOutput [("A", 0)] ≠ none := by
  have h : shareOutput [("A", 0)] = some [("A", 0, none)] := by
    norm_num [shareOutput, totalOf]
  exact ⟨h, by rw [h]; simp⟩

/-- C5 (amended): only the no-rows case is guarded (`pie_data.empty`);
with rows present and a nonzero total each share is `100 * value / total`,
and with rows present and a zero total the chart is still produced, every
share being the undefined (NaN) value. -/
theorem share_output_branches (totals : List (String × ℚ)) (h : totals ≠ []) :
    (totalOf totals ≠ 0 →
      shareOutput totals =
        some (totals.map (fun p => (p.1, p.2, some (sharePercent (totalOf totals) p.2)))))
    ∧ (totalOf totals = 0 →
      shareOutput totals = some (totals.map (fun p => (p.1, p.2, (none : Option ℚ))))) := by
  constructor
  · intro hz
    rw [shareOutput, if_neg h]
    simp [hz]
  · intro hz
    rw [shareOutput, if_neg h]
    simp [hz]

theorem share_output_branches_witness :
    [("X", (2 : ℚ)), ("Y", 2)] ≠ [] ∧ totalOf [("X", (2 : ℚ)), ("Y", 2)] ≠ 0 ∧
      shareOutput [("X", (2 : ℚ)), ("Y", 2)] =
        some ([("X", (2 : ℚ)), ("Y", 2)].map
          (fun p => (p.1, p.2, some (sharePercent (totalOf [("X", (2 : ℚ)), ("Y", 2)]) p.2)))) :=
  ⟨by decide, by norm_num [totalOf],
    (share_output_branches _ (by decide)).1 (by norm_num [totalOf])⟩

/-- C6 counterexample: for rows inserted in the order `D:30, A:10, B:30,
C:20`, the top-2 ranking is `[B, D]` — the groupby step has already
re-sorted categories alphabetically, so the tie between B and D is NOT
broken by original row order (which would give `[D, B]`). -/
theorem ranker_tie_not_insertion_order :
    topN exRank 2 = [("B", (30 : ℚ)), ("D", 30)] ∧
      topN exRank 2 ≠ [("D", (30 : ℚ)), ("B", 30)] := by
  have hg : groupTotals exRank = [("A", (10 : ℚ)), ("B", 30), ("C", 20), ("D", 30)] := by
    rw [groupTotals]
    rw [show (exRank.map Prod.fst).dedup = ["D", "A", "B", "C"] by decide]
    rw [show List.insertionSort (fun a b : String => charListLe a.data b.data = true)
      ["D", "A", "B", "C"] = ["A", "B", "C", "D"] by decide]
    simp [exRank]
  constructor
  · rw [topN, hg]
    decide
  · rw [topN, hg]
    decide

/-- C6 (amended): the ranker returns the first `n` rows of the grouped
totals sorted by value descending; ties among equal totals come out in
category-code order (the groupby key sort), not in original row order —
e.g. all-tied categories inserted as `Z, Y, X` rank as `[X, Y]`. -/
theorem ranker_sorted_and_ties (rows : List (String × ℚ)) (n : ℕ) :
    List.Sorted (fun a b : String × ℚ => b.2 ≤ a.2) (topN rows n)
    ∧ (topN rows n).length = min n (groupTotals rows).length
    ∧ topN exRank2 2 = [("X", (5 : ℚ)), ("Y", 5)] := by
  refine ⟨?_, ?_, ?_⟩
  · haveI h1 : IsTotal (String × ℚ) (fun a b => b.2 ≤ a.2) := ⟨fun a b => le_total b.2 a.2⟩
    haveI h2 : IsTrans (String × ℚ) (fun a b => b.2 ≤ a.2) :=
      ⟨fun _ _ _ hab hbc => le_trans hbc hab⟩
    exact (List.sorted_insertionSort _ _).sublist (List.take_sublist _ _)
  · rw [topN, List.length_take]
    congr 1
    exact (List.perm_insertionSort _ _).length_eq
  · have hg : groupTotals exRank2 = [("X", (5 : ℚ)), ("Y", 5), ("Z", 5)] := by
      rw [groupTotals]
      rw [show (exRank2.map Prod.fst).dedup = ["Z", "Y", "X"] by decide]
      rw [show List.insertionSort (fun a b : String => charListLe a.data b.data = true)
        ["Z", "Y", "X"] = ["X", "Y", "Z"] by decide]
      simp [exRank2]
    rw [topN, hg]
    decide

theorem sharePercents_sum_aux (t : ℚ) (l : List (String × ℚ)) :
    (l.map (fun p => sharePercent t p.2)).sum = (l.map Prod.snd).sum / t * 100 := by
  induction l with
  | nil => simp
  | cons a l ih =>
    simp only [List.map_cons, List.sum_cons, ih]
    rw [sharePercent, add_div, add_mul]

/-- C9: with a strictly positive total, the computed share percentages sum
exactly to 100; for totals `{A:50, B:30, C:20}` the shares are
`[50, 30, 20]`. -/
theorem shares_sum_to_100 (totals : List (String × ℚ)) (h : 0 < totalOf totals) :
    (sharePercents totals).sum = 100 ∧ sharePercents exShare = [50, 30, 20] := by
  constructor
  · rw [sharePercents, sharePercents_sum_aux]
    show totalOf totals / totalOf totals * 100 = 100
    rw [div_self (ne_of_gt h), one_mul]
  · norm_num [sharePercents, sharePercent, totalOf, exShare]

theorem shares_sum_to_100_witness :
    0 < totalOf exShare ∧ (sharePercents exShare).sum = 100 :=
  ⟨by norm_num [totalOf, exShare],
    (shares_sum_to_100 exShare (by norm_num [totalOf, exShare])).1⟩

/-- C8: an empty filtered record set halts the query branch at the guard
with a single notice and produces no further output, while a nonempty
record set whose values are all zero renders output — the two outcomes
are distinct. -/
theorem empty_guard_halts_and_zero_renders :
    runBranch [] = .halted
    ∧ runBranch [⟨2020, "A", 0⟩] ≠ .halted
    ∧ runBranch [⟨2020, "A", 0⟩] =
        .rendered [("A", histSeries [⟨2020, "A", 0⟩] "A")] := by
  refine ⟨rfl, ?_, ?_⟩
  · rw [runBranch, if_neg (by simp)]
    simp
  · rw [runBranch, if_neg (by simp)]
    rfl

/-- C7 counterexample: for the series `[(2013,100),(2024,50)]` no
projection is produced (only one row falls inside the ≥ 2020 estimation
window), yet the informational notice is not surfaced (the series has two
strictly positive rows) — so the notice does not appear if and only if no
projection is produced. -/
theorem notice_without_projection :
    noticeCond exC7 = false ∧ project_series_cagr exC7 = none ∧
      ¬((noticeCond exC7 = true) ↔ project_series_cagr exC7 = none) := by
  refine ⟨by decide, rfl, ?_⟩
  intro hiff
  have h := hiff.mpr rfl
  have h2 : noticeCond exC7 = false := by decide
  rw [h2] at h
  exact Bool.noConfusion h

/-- C7 (amended): when projections are requested the notice for a category
is surfaced exactly when its series has fewer than 2 strictly positive
rows — a condition independent of whether a projection is produced (the
series `[(2020,100),(2024,0)]` triggers the notice yet yields a nonempty
projection) — and the zero-filled historical rows are produced in every
case. -/
theorem notice_and_hist_always (sp : Bool) (subset : List Obs) :
    (∃ rest, mergedFor sp subset = histOf subset ++ rest)
    ∧ (noticeCond subset = true ↔
        (subset.filter (fun o => decide (0 < o.value))).length < 2)
    ∧ noticeCond exPos = true
    ∧ project_series_cagr exPos = some proj6
    ∧ proj6 ≠ [] := by
  refine ⟨?_, by simp [noticeCond], by decide, ?_, ?_⟩
  · cases sp with
    | false => exact ⟨[], by simp [mergedFor]⟩
    | true =>
      rcases hp : project_series_cagr subset with _ | proj
      · exact ⟨[], by simp [mergedFor, hp]⟩
      · by_cases hpe : proj = []
        · exact ⟨[], by simp [mergedFor, hp, hpe]⟩
        · rcases hl : (sortByYear subset).getLast? with _ | last
          · exact ⟨[], by simp [mergedFor, hp, hl, hpe]⟩
          · exact ⟨⟨last.year, (last.value : ℝ), true⟩ ::
              proj.map (fun p => ⟨p.1, p.2, true⟩), by simp [mergedFor, hp, hl, hpe]⟩
  · have hc : cagrOf exPos = some (-0.35) := by
      have hw : recentWindow exPos = [⟨2020, 100⟩, ⟨2024, 0⟩] := by decide
      simp only [cagrOf, hw]
      norm_num [Real.zero_rpow, clamp035, min_def, max_def]
    have hlast : (sortByYear exPos).getLast? = some ⟨2024, 0⟩ := by decide
    simp only [project_series_cagr, hc, hlast]
    norm_num [proj6]
  · have h := projectLoop_eq (-0.35) 6 2024 0
    rw [proj6, projectFrom, show ((2030 : ℤ) - 2024).toNat = 6 from by decide, h]
    simp

/-- C10: when a series ends at or past the 2030 horizon, the projector
returns an empty projection even though the growth estimate is valid, and
the chart builder then falls back to the historical-only rows exactly as
in the invalid-estimate case. -/
theorem horizon_past_empty_projection (s : List Obs) (r : ℝ)
    (h1 : cagrOf s = some r) (h2 : 2030 ≤ lastYearOf s) :
    project_series_cagr s = some [] ∧ mergedFor true s = histOf s := by
  have hlen : ¬((recentWindow s).length < 2) := by
    intro hl
    rw [show cagrOf s = none by simp [cagrOf, hl]] at h1
    exact Option.noConfusion h1
  have hne : sortByYear s ≠ [] := by
    intro hnil
    apply hlen
    rw [recentWindow, hnil]
    simp
  have hlast : (sortByYear s).getLast? = some ((sortByYear s).getLast hne) :=
    List.getLast?_eq_getLast_of_ne_nil hne
  have hy : 2030 ≤ ((sortByYear s).getLast hne).year := by
    rw [lastYearOf, hlast] at h2
    simpa using h2
  have htn : ((2030 : ℤ) - ((sortByYear s).getLast hne).year).toNat = 0 :=
    Int.toNat_eq_zero.mpr (by omega)
  have hproj : projectFrom ((sortByYear s).getLast hne).year
      (((sortByYear s).getLast hne).value : ℝ) r = [] := by
    rw [projectFrom, htn]
    rfl
  have hps : project_series_cagr s = some [] := by
    simp only [project_series_cagr, h1, hlast, hproj]
  refine ⟨hps, ?_⟩
  simp [mergedFor, hps]

theorem horizon_past_empty_projection_witness :
    cagrOf exC10 = some 0.35 ∧ (2030 : ℤ) ≤ lastYearOf exC10 ∧
      project_series_cagr exC10 = some [] ∧ mergedFor true exC10 = histOf exC10 := by
  have hc : cagrOf exC10 = some 0.35 := by
    have hw : recentWindow exC10 = [⟨2030, 100⟩, ⟨2031, 200⟩] := by decide
    simp only [cagrOf, hw]
    norm_num [Real.rpow_one, clamp035, min_def, max_def]
  have h := horizon_past_empty_projection exC10 0.35 hc (by decide)
  exact ⟨hc, by decide, h.1, h.2⟩
